import Mathlib

/-!
Verification of the B2 storage backend (`pkg/common/b2.go`) of squirrel-up.

The definitions below are a shallow embedding of the Go source:

* `handleError` embeds `handleError` (b2.go:124-144); Go errors are embedded
  as `GoErr` (an AWS coded error, whose `Error()` string is
  `code ++ ": " ++ message` as produced by `awserr.SprintError`, or a plain
  error carrying only a message).
* `partsLoopF`/`partsFor` embed the part-splitting loop of `StoreFile`
  (b2.go:302-318).  The loop variable `position` advances by
  `put_get_object_max_bytes` and `length` is clamped on the final part.
* `uploadPartLoop`/`uploadPartRun` embed the retry loop of `uploadPart`
  (b2.go:160-194); the per-attempt server outcome is an oracle
  `Nat → String × Option GoErr` (ETag and error of each `UploadPart` call),
  and the trace counts `UploadPart` calls and `waitfunc` sleeps (each sleep
  passes `multipart_upload_wait_seconds`).
* `collectLoop` embeds the result-collection loop over the channel
  (b2.go:326-336); the channel arrival order is the order of the `arrivals`
  list.
* `storeFileRun` embeds `StoreFile` (b2.go:280-376), parameterised by the
  server responses (create/complete/abort/put results) and by the arrival
  order of the part-upload results.  `sort.Sort(byPartNum)` (b2.go:347) is
  embedded as an insertion sort by part number, which realises exactly the
  contract Go's `sort.Sort` guarantees: a permutation of its input that is
  sorted w.r.t. `Less` (b2.go:155-157).
* `getFileInfoModel`/`listFilesModel` embed `GetFileInfo` and `ListFiles`
  (b2.go:199-276), parameterised by the `HeadObject`/`ListObjectsV2`
  responses.  Timestamps are embedded as `Int` (Go `time.Time` supports
  times before the Unix epoch, which is `0`); `uint64` accumulation is
  embedded as `Nat` arithmetic modulo `2 ^ 64`.
* `psrRead`/`psrRunSeq` embed `progressSectionReader.Read` (b2.go:76-99)
  over an abstract underlying section reader (`srRead`) and abstract
  progress-bar operations (`BarOps`), mirroring that the bar object is
  disjoint from the reader state.
* `MPStep`/`MPReachable` is a small-step interleaving model of the goroutine
  structure of the multipart path (b2.go:298-324): the spawn loop runs
  `wg.Add(1); go b2.uploadPart(...)` with no slot acquisition, and
  `uploadPart` issues its first `UploadPart` call unconditionally, so a
  spawned job may start its upload at any time; a job finishes after its
  upload is done.  There is no semaphore anywhere in the function.
-/

/-! ## Constants (b2.go:45-50) -/

def put_get_object_max_bytes : Nat := 256 * 1024 * 1024

def multipart_upload_part_size : Nat := 100 * 1024 * 1024

def multipart_upload_wait_seconds : Nat := 5

def multipart_upload_max_attempts : Nat := 5

/-! ## Errors and the error classifier (b2.go:124-144, backend.go) -/

/-- Common error strings (`pkg/common/backend.go`). -/
def ErrFileNotFound : String := "file not found"

def ErrAccessDenied : String := "access denied"

def ErrInvalidConfig : String := "invalid backend configuration"

def ErrOperationTimeout : String := "operation timeout"

/-- A Go error value as seen by `handleError`: either an `awserr.Error`
carrying a code and a message, or a plain error carrying a message. -/
inductive GoErr where
  | awsErr (code msg : String)
  | genericErr (msg : String)
deriving DecidableEq, Repr

/-- The `Error()` string of a `GoErr`.  For `awserr.New(code, msg, nil)` the
AWS SDK's `SprintError` yields `code ++ ": " ++ msg`. -/
def errString : GoErr → String
  | .awsErr code msg => code ++ ": " ++ msg
  | .genericErr msg => msg

/-- Embeds `handleError` (b2.go:124-144): the switch on `aerr.Code()` with
fallthrough groups, and the `fmt.Errorf("unknown B2 error (%s).", err.Error())`
fallback reached for unrecognised codes and for non-AWS errors. -/
def handleError (err : GoErr) : String :=
  match err with
  | .awsErr code _ =>
    if code = "NotFound" ∨ code = "NoSuchBucket" ∨ code = "NoSuchKey" then
      ErrFileNotFound
    else if code = "AccessDenied" then ErrAccessDenied
    else if code = "MissingRegion" ∨ code = "EmptyStaticCreds" then ErrInvalidConfig
    else if code = "RequestTimeout" then ErrOperationTimeout
    else "unknown B2 error (" ++ errString err ++ ")."
  | .genericErr _ => "unknown B2 error (" ++ errString err ++ ")."

/-! ## The part partition of StoreFile (b2.go:302-318) -/

/-- One part-upload job: 1-based part number, byte offset and length of the
section handed to `io.NewSectionReader(inputStream, position, length)`. -/
structure PartJob where
  num : Nat
  pos : Nat
  len : Nat
deriving DecidableEq, Repr

/-- Embeds the splitting loop of `StoreFile` (b2.go:302-318):

for position = 0; position < contentLength; position += put_get_object_max_bytes,
with `length` clamped to `contentLength - position` once
`position + length >= contentLength`, and `partNum` incremented per part.

The first argument is fuel making the recursion structural; `cl` steps of
fuel always suffice because `position` strictly increases each iteration. -/
def partsLoopF (cl : Nat) : Nat → Nat → Nat → Nat → List PartJob
  | 0, _, _, _ => []
  | fuel + 1, position, partNum, length =>
    if position < cl then
      let len2 := if cl ≤ position + length then cl - position else length
      ⟨partNum + 1, position, len2⟩ ::
        partsLoopF cl fuel (position + put_get_object_max_bytes) (partNum + 1) len2
    else []

/-- The list of part-upload jobs `StoreFile` creates for `contentLength = cl`. -/
def partsFor (cl : Nat) : List PartJob :=
  partsLoopF cl cl 0 0 put_get_object_max_bytes

/-- Boolean check that a part list tiles the byte range starting at `start`:
each part begins where the previous one ended (consecutive, non-overlapping). -/
def chained (start : Nat) : List PartJob → Bool
  | [] => true
  | p :: ps => (p.pos == start) && chained (p.pos + p.len) ps

/-! ## Result collection and finalization of StoreFile (b2.go:280-376) -/

/-- An `s3.CompletedPart`: part number and the ETag returned by the server. -/
structure CompletedPart where
  partNumber : Nat
  etag : String
deriving DecidableEq, Repr

/-- A `partUploadResult` message sent on the channel (b2.go:37-40):
`uploadPart` always sends a completed-part record together with the error of
its last attempt (`nil` on success). -/
structure PartUploadResult where
  completedPart : CompletedPart
  err : Option GoErr
deriving DecidableEq, Repr

/-- Embeds the collection loop (b2.go:327-336): walk the channel arrivals in
order; the first error encountered is kept (`if err == nil`), successful
parts are appended to `completedParts` in arrival order. -/
def collectLoop : List PartUploadResult → List CompletedPart → Option GoErr →
    List CompletedPart × Option GoErr
  | [], parts, err => (parts, err)
  | r :: rest, parts, err =>
    match r.err with
    | some e =>
      collectLoop rest parts (match err with | none => some e | some e0 => some e0)
    | none => collectLoop rest (parts ++ [r.completedPart]) err

/-- The order `byPartNum.Less` (b2.go:155-157), as a non-strict total order
used by the sort model. -/
def partNumLE (a b : CompletedPart) : Prop := a.partNumber ≤ b.partNumber

instance : DecidableRel partNumLE := fun a b => Nat.decLe a.partNumber b.partNumber

instance : IsTotal CompletedPart partNumLE := ⟨fun a b => Nat.le_total a.partNumber b.partNumber⟩

instance : IsTrans CompletedPart partNumLE := ⟨fun _ _ _ => Nat.le_trans⟩

/-- The `CreateMultipartUploadOutput` fields `StoreFile` looks at: a possibly
missing `UploadId` (b2.go:294). -/
structure CreateOut where
  uploadId : Option String
deriving DecidableEq, Repr

/-- Observable behaviour of one `StoreFile` call: the `PutObject` calls (with
the section offset and length of the body), the number of
`CreateMultipartUpload` calls, the part lists passed to
`CompleteMultipartUpload`, the number of `AbortMultipartUpload` calls, and
the returned error (`none` = `nil`). -/
structure StoreTrace where
  putCalls : List (Int × Int)
  createCalls : Nat
  completeCalls : List (List CompletedPart)
  abortCalls : Nat
  returned : Option String
deriving DecidableEq, Repr

/-- Embeds `StoreFile` (b2.go:280-376), parameterised by the server
responses: `createResult` is the `CreateMultipartUpload` outcome, `arrivals`
the part-upload results in channel-arrival order, `completeErr` /
`abortErr` / `putErr` the errors of `CompleteMultipartUpload` /
`AbortMultipartUpload` / `PutObject`.  The abort branch discards the abort
call's result (`_, _ =` at b2.go:340), so `abortErr` is never surfaced. -/
def storeFileRun (contentLength : Int) (createResult : Except GoErr CreateOut)
    (arrivals : List PartUploadResult) (completeErr : Option GoErr)
    (abortErr : Option GoErr) (putErr : Option GoErr) : StoreTrace :=
  if (put_get_object_max_bytes : Int) < contentLength then
    match createResult with
    | .error e => ⟨[], 1, [], 0, some (handleError e)⟩
    | .ok co =>
      match co.uploadId with
      | none =>
        ⟨[], 1, [], 0, some (handleError (.genericErr
          "multipart upload failed: no upload id found in server response"))⟩
      | some _ =>
        let numParts := (partsFor contentLength.toNat).length
        let collected := collectLoop arrivals [] none
        if collected.1.length < numParts || collected.2.isSome then
          ⟨[], 1, [], 1, collected.2.map handleError⟩
        else
          ⟨[], 1, [List.insertionSort partNumLE collected.1], 0,
            completeErr.map handleError⟩
  else
    ⟨[(0, contentLength)], 0, [], 0, putErr.map handleError⟩

/-! ## Collection-loop lemmas -/

/-! ## The uploadPart retry loop (b2.go:160-194) -/

/-- Observable behaviour of one `uploadPart` job: number of `UploadPart`
calls made, number of `waitfunc` sleeps (each passing
`multipart_upload_wait_seconds`), and the `uploadOutput.ETag` / `err` values
at loop exit — exactly what is sent on the channel (b2.go:187-193). -/
structure UploadPartTrace where
  attempts : Nat
  sleeps : Nat
  etag : String
  err : Option GoErr
deriving DecidableEq, Repr

/-- Embeds the retry loop of `uploadPart` (b2.go:167-185): attempt outcomes
come from the oracle `o` (ETag and error of the n-th `UploadPart` call); on
success the loop breaks, on failure it sleeps and retries.  The first
argument is fuel, kept equal to
`multipart_upload_max_attempts - attempt`, making the recursion structural;
the remaining arguments are the loop state (attempt counter, calls/sleeps
made so far, and the current `uploadOutput.ETag` / `err` values, initially
zero values as in Go). -/
def uploadPartLoop (o : Nat → String × Option GoErr) :
    Nat → Nat → Nat → Nat → String → Option GoErr → UploadPartTrace
  | 0, _, calls, sleeps, etag, err => ⟨calls, sleeps, etag, err⟩
  | fuel + 1, attempt, calls, sleeps, etag, err =>
    if attempt < multipart_upload_max_attempts then
      match (o attempt).2 with
      | none => ⟨calls + 1, sleeps, (o attempt).1, none⟩
      | some e =>
        uploadPartLoop o fuel (attempt + 1) (calls + 1) (sleeps + 1) (o attempt).1 (some e)
    else ⟨calls, sleeps, etag, err⟩

/-- One full `uploadPart` job run. -/
def uploadPartRun (o : Nat → String × Option GoErr) : UploadPartTrace :=
  uploadPartLoop o multipart_upload_max_attempts 0 0 0 "" none

/-! ## Concurrency structure of the multipart path (b2.go:298-324)

The spawn loop runs `wg.Add(1); go b2.uploadPart(...)` for every part with
no slot acquisition of any kind, and `uploadPart` issues its `UploadPart`
call unconditionally on entry, so a spawned goroutine may begin its upload
at any time; a goroutine finishes after its upload completes.  The state
counts goroutines that are spawned-but-not-yet-uploading (`pending`),
uploading (`inflight`) and finished (`done`). -/

structure MPState where
  pending : Nat
  inflight : Nat
  done : Nat
  spawned : Nat
deriving DecidableEq, Repr

/-- Interleaving steps of one multipart `StoreFile` run with `N` parts.
`spawn` is an iteration of the loop at b2.go:304-318 (guarded only by the
number of parts), `start` is a spawned `uploadPart` goroutine reaching its
first `UploadPart` call (b2.go:168-176, no guard in the code), and `finish`
is an in-flight upload completing. -/
inductive MPStep (N : Nat) : MPState → MPState → Prop where
  | spawn (s : MPState) : s.spawned < N →
      MPStep N s ⟨s.pending + 1, s.inflight, s.done, s.spawned + 1⟩
  | start (s : MPState) : 0 < s.pending →
      MPStep N s ⟨s.pending - 1, s.inflight + 1, s.done, s.spawned⟩
  | finish (s : MPState) : 0 < s.inflight →
      MPStep N s ⟨s.pending, s.inflight - 1, s.done + 1, s.spawned⟩

/-- States reachable during one multipart `StoreFile` run with `N` parts. -/
def MPReachable (N : Nat) (s : MPState) : Prop :=
  Relation.ReflTransGen (MPStep N) ⟨0, 0, 0, 0⟩ s

/-! ## The error classifier (C7) -/

/-! ## GetFileInfo / ListFiles (b2.go:199-276) -/

/-- One object of a `ListObjectsV2` response: `*item.Key`, `*item.Size`
(int64) and `*item.LastModified` (a Go `time.Time`, embedded as the signed
offset from the Unix epoch; `time.Time` supports pre-epoch values). -/
structure ObjItem where
  key : String
  size : Int
  lastModified : Int
deriving DecidableEq, Repr

/-- The `FileInfo` value (`pkg/common/backend.go`): `size` is a uint64,
embedded as a `Nat` below `2 ^ 64`. -/
structure FileInfo where
  name : String
  size : Nat
  modified : Int
  isfile : Bool
deriving DecidableEq, Repr

/-- The Go conversion `uint64(x)` of an int64 `x` (two's-complement wrap). -/
def u64 (x : Int) : Nat := (x % (2 ^ 64 : Int)).toNat

/-- The `HeadObject` response fields used: `*resp.ContentLength` (int64) and
`*resp.LastModified`. -/
structure HeadOut where
  contentLength : Int
  lastModified : Int
deriving DecidableEq, Repr

/-- Embeds `strings.HasSuffix(s, pat)` on the character data of the two
strings (structurally computable, agreeing with `String.endsWith`). -/
def goHasSuffix (s pat : String) : Bool := pat.data.isSuffixOf s.data

/-- Embeds `ListFiles` (b2.go:254-276) given the `ListObjectsV2` response:
failures are classified, each listed object becomes a `FileInfo` with
`isfile = true`. -/
def listFilesModel (resp : Except GoErr (List ObjItem)) : Except String (List FileInfo) :=
  match resp with
  | .error e => .error (handleError e)
  | .ok items => .ok (items.map fun it => ⟨it.key, u64 it.size, it.lastModified, true⟩)

/-- Embeds `GetFileInfo` (b2.go:199-249), parameterised by the
`ListObjectsV2` and `HeadObject` responses.  On a trailing-separator key it
aggregates the listing: `keysize` accumulates in uint64, `modifieddate`
starts at `time.Unix(0, 0)` (the epoch, `0`) and is replaced whenever it is
`Before` an object's modification time. -/
def getFileInfoModel (key : String) (listResp : Except GoErr (List ObjItem))
    (headResp : Except GoErr HeadOut) : Except String FileInfo :=
  if goHasSuffix key "/" then
    match listFilesModel listResp with
    | .error e => .error e
    | .ok filelist =>
      .ok ⟨key,
        filelist.foldl (fun s fi => (s + fi.size) % 2 ^ 64) 0,
        filelist.foldl (fun md fi => if md < fi.modified then fi.modified else md) 0,
        false⟩
  else
    match headResp with
    | .error e => .error (handleError e)
    | .ok h =>
      if h.contentLength < 0 then .error "invalid file info"
      else .ok ⟨key, h.contentLength.toNat, h.lastModified, true⟩

/-! ## The progress-tracking section reader (b2.go:61-104) -/

/-- Abstract progress-bar operations: the `progressbar.ProgressBar` methods
used by `Read` (`Describe`, `Add`, `IsFinished`, `Reset`).  The bar state
type is abstract; the bar holds no reference to the reader, exactly as in
the code. -/
structure BarOps (β : Type) where
  add : β → Nat → β
  describe : β → String → β
  isFinished : β → Bool
  reset : β → β

/-- State of a `progressSectionReader` (b2.go:31-35): underlying
section-reader state, its fixed `Size()`, the cumulative `read` counter and
the optional bar. -/
structure PSRState (σ β : Type) where
  sr : σ
  size : Int
  readCount : Int
  bar : Option β

/-- Embeds `newProgressSectionReader` (b2.go:61-73): the bar is created
(from the section size) iff progress is enabled; `read` starts at 0. -/
def newPSR {σ β : Type} (mkBar : Int → β) (enableProgress : Bool) (sr : σ)
    (size : Int) : PSRState σ β :=
  ⟨sr, size, 0, if enableProgress then some (mkBar size) else none⟩

/-- Embeds `progressSectionReader.Read` (b2.go:76-99) over an abstract
deterministic underlying reader `srRead` (reader state and buffer capacity
to bytes-read count, error and next state).  The wrapper returns exactly the
underlying reader's `(n, err)`, bumps `read` by `n`, and updates the bar
("signing" on first read, `Add`, and the reset-plus-"uploading" switch when
the bar finishes) only when a bar is present. -/
def psrRead {σ β : Type} (srRead : σ → Nat → Nat × Option GoErr × σ)
    (ops : BarOps β) (s : PSRState σ β) (bufLen : Nat) :
    Nat × Option GoErr × PSRState σ β :=
  let r := srRead s.sr bufLen
  let bar2 := match s.bar with
    | none => none
    | some b =>
      if s.readCount < s.size then
        let b1 := if s.readCount = 0 then ops.describe b "signing" else b
        let b2 := ops.add b1 r.1
        if ops.isFinished b2 then some (ops.describe (ops.reset b2) "uploading")
        else some b2
      else some (ops.add b r.1)
  (r.1, r.2.1, ⟨r.2.2, s.size, s.readCount + r.1, bar2⟩)

/-- A sequence of `Read` calls through the wrapper, collecting the returned
(bytes-read, error) pairs. -/
def psrRunSeq {σ β : Type} (srRead : σ → Nat → Nat × Option GoErr × σ)
    (ops : BarOps β) : PSRState σ β → List Nat →
      List (Nat × Option GoErr) × PSRState σ β
  | s, [] => ([], s)
  | s, b :: bs =>
    let st := psrRead srRead ops s b
    let rest := psrRunSeq srRead ops st.2.2 bs
    ((st.1, st.2.1) :: rest.1, rest.2)

/-! ## Theorems -/

example : partsFor (2 * put_get_object_max_bytes) =
    [⟨1, 0, put_get_object_max_bytes⟩,
     ⟨2, put_get_object_max_bytes, put_get_object_max_bytes⟩] := by decide

example : partsFor (put_get_object_max_bytes + 1) =
    [⟨1, 0, put_get_object_max_bytes⟩, ⟨2, put_get_object_max_bytes, 1⟩] := by decide

theorem pgomb_pos : 0 < put_get_object_max_bytes := by decide

theorem partsLoopF_stop (cl fuel pos n len : Nat) (h : ¬ pos < cl) :
    partsLoopF cl fuel pos n len = [] := by
  cases fuel with
  | zero => rfl
  | succ f => simp [partsLoopF, h]

/-- Loop invariant of the splitting loop: starting from any live position the
emitted parts are numbered consecutively, tile `[pos, cl)`, all have length
`put_get_object_max_bytes` except the final one, and no part is empty or
longer than `put_get_object_max_bytes`. -/
theorem partsLoopF_props :
    ∀ fuel cl pos n, cl - pos ≤ fuel → pos < cl →
      partsLoopF cl fuel pos n put_get_object_max_bytes ≠ [] ∧
      (partsLoopF cl fuel pos n put_get_object_max_bytes).map (fun p => p.num) =
        List.range' (n + 1) (partsLoopF cl fuel pos n put_get_object_max_bytes).length ∧
      chained pos (partsLoopF cl fuel pos n put_get_object_max_bytes) = true ∧
      ((partsLoopF cl fuel pos n put_get_object_max_bytes).map (fun p => p.len)).sum
        = cl - pos ∧
      (∀ p ∈ (partsLoopF cl fuel pos n put_get_object_max_bytes).dropLast,
        p.len = put_get_object_max_bytes) ∧
      (∀ p ∈ partsLoopF cl fuel pos n put_get_object_max_bytes,
        0 < p.len ∧ p.len ≤ put_get_object_max_bytes) := by
  have hT := pgomb_pos
  intro fuel
  induction fuel with
  | zero => intro cl pos n h1 h2; omega
  | succ f ih =>
    intro cl pos n h1 h2
    by_cases hfin : cl ≤ pos + put_get_object_max_bytes
    · have hstop : ¬ pos + put_get_object_max_bytes < cl := by omega
      have heq : partsLoopF cl (f + 1) pos n put_get_object_max_bytes =
          [⟨n + 1, pos, cl - pos⟩] := by
        simp [partsLoopF, h2, hfin, partsLoopF_stop _ _ _ _ _ hstop]
      rw [heq]
      refine ⟨by simp, by simp, by simp [chained], by simp, by simp, ?_⟩
      intro p hp
      simp only [List.mem_singleton] at hp
      subst hp
      exact ⟨show 0 < cl - pos by omega,
        show cl - pos ≤ put_get_object_max_bytes by omega⟩
    · have hlt : pos + put_get_object_max_bytes < cl := by omega
      have heq : partsLoopF cl (f + 1) pos n put_get_object_max_bytes =
          ⟨n + 1, pos, put_get_object_max_bytes⟩ ::
            partsLoopF cl f (pos + put_get_object_max_bytes) (n + 1)
              put_get_object_max_bytes := by
        simp [partsLoopF, h2, hfin]
      obtain ⟨hne, hnum, hch, hsum, hdrop, hmem⟩ :=
        ih cl (pos + put_get_object_max_bytes) (n + 1) (by omega) (by omega)
      rw [heq]
      obtain ⟨r, rs, hrest⟩ := List.exists_cons_of_ne_nil hne
      refine ⟨by simp, ?_, ?_, ?_, ?_, ?_⟩
      · simp only [List.map_cons, List.length_cons, List.range'_succ]
        rw [hnum]
      · simp [chained, hch]
      · simp only [List.map_cons, List.sum_cons, hsum]
        omega
      · rw [hrest]
        rw [hrest] at hdrop
        intro p hp
        rw [List.dropLast_cons₂] at hp
        rcases List.mem_cons.mp hp with h | h
        · rw [h]
        · exact hdrop p h
      · intro p hp
        rcases List.mem_cons.mp hp with h | h
        · rw [h]; exact ⟨hT, Nat.le_refl _⟩
        · exact hmem p h

/-- The properties of the full partition `partsFor cl`, shared by the
claims about the multipart path. -/
theorem partsFor_props (cl : Nat) (hcl : put_get_object_max_bytes < cl) :
    partsFor cl ≠ [] ∧
    (partsFor cl).map (fun p => p.num) = List.range' 1 (partsFor cl).length ∧
    chained 0 (partsFor cl) = true ∧
    ((partsFor cl).map (fun p => p.len)).sum = cl ∧
    (∀ p ∈ (partsFor cl).dropLast, p.len = put_get_object_max_bytes) ∧
    (∀ p ∈ partsFor cl, 0 < p.len ∧ p.len ≤ put_get_object_max_bytes) := by
  have h := partsLoopF_props cl cl 0 0 (by omega) (by have := pgomb_pos; omega)
  simpa [partsFor] using h

/-- The partition has at least two parts whenever the multipart path is
taken. -/
theorem partsFor_two_le (cl : Nat) (hcl : put_get_object_max_bytes < cl) :
    2 ≤ (partsFor cl).length := by
  obtain ⟨hne, _, _, hsum, _, hmem⟩ := partsFor_props cl hcl
  by_contra h
  push_neg at h
  interval_cases hl : (partsFor cl).length
  · exact hne (List.length_eq_zero.mp hl)
  · obtain ⟨p, hp⟩ := List.length_eq_one.mp hl
    rw [hp] at hsum hmem
    have := hmem p (by simp)
    simp at hsum
    omega

/-- C5: for `contentLength` above the single-shot threshold, `StoreFile`
partitions `[0, contentLength)` into consecutive, non-overlapping byte ranges
numbered `1..N` contiguously in byte-range order; every part has length
`put_get_object_max_bytes` except the final one, which is never zero-length
and never longer than the fixed size. -/
theorem storeFile_partition_correct (cl : Nat) (hcl : put_get_object_max_bytes < cl) :
    partsFor cl ≠ [] ∧
    (partsFor cl).map (fun p => p.num) = List.range' 1 (partsFor cl).length ∧
    chained 0 (partsFor cl) = true ∧
    ((partsFor cl).map (fun p => p.len)).sum = cl ∧
    (∀ p ∈ (partsFor cl).dropLast, p.len = put_get_object_max_bytes) ∧
    (∀ p ∈ partsFor cl, 0 < p.len ∧ p.len ≤ put_get_object_max_bytes) :=
  partsFor_props cl hcl

/-- C5 witness: the partition of `put_get_object_max_bytes + 1` bytes. -/
theorem storeFile_partition_correct_witness :
    partsFor (put_get_object_max_bytes + 1) ≠ [] ∧
    (partsFor (put_get_object_max_bytes + 1)).map (fun p => p.num) =
      List.range' 1 (partsFor (put_get_object_max_bytes + 1)).length ∧
    chained 0 (partsFor (put_get_object_max_bytes + 1)) = true ∧
    ((partsFor (put_get_object_max_bytes + 1)).map (fun p => p.len)).sum =
      put_get_object_max_bytes + 1 ∧
    (∀ p ∈ (partsFor (put_get_object_max_bytes + 1)).dropLast,
      p.len = put_get_object_max_bytes) ∧
    (∀ p ∈ partsFor (put_get_object_max_bytes + 1),
      0 < p.len ∧ p.len ≤ put_get_object_max_bytes) :=
  storeFile_partition_correct (put_get_object_max_bytes + 1) (by decide)

/-- C10: the chunk size of the partition is `put_get_object_max_bytes`
(256 MiB) — the same constant used as the single-shot threshold, and not the
separately declared `multipart_upload_part_size` (100 MiB) — and the
partition always has at least two parts. -/
theorem storeFile_partition_chunk_is_threshold (cl : Nat)
    (hcl : put_get_object_max_bytes < cl) :
    (∀ p ∈ (partsFor cl).dropLast, p.len = put_get_object_max_bytes) ∧
    2 ≤ (partsFor cl).length ∧
    put_get_object_max_bytes = 256 * 1024 * 1024 ∧
    multipart_upload_part_size = 100 * 1024 * 1024 ∧
    multipart_upload_part_size ≠ put_get_object_max_bytes := by
  obtain ⟨_, _, _, _, hdrop, _⟩ := partsFor_props cl hcl
  exact ⟨hdrop, partsFor_two_le cl hcl, rfl, rfl, by decide⟩

/-- C4: at or below the single-shot threshold `StoreFile` performs exactly
one direct `PutObject` of the whole content (section `[0, contentLength)`)
and never creates a multipart session; above the threshold it creates a
multipart session and performs no `PutObject`. -/
theorem storeFile_threshold_dispatch (contentLength : Int)
    (createResult : Except GoErr CreateOut) (arrivals : List PartUploadResult)
    (completeErr abortErr putErr : Option GoErr) :
    (contentLength ≤ (put_get_object_max_bytes : Int) →
      storeFileRun contentLength createResult arrivals completeErr abortErr putErr =
        ⟨[(0, contentLength)], 0, [], 0, putErr.map handleError⟩) ∧
    ((put_get_object_max_bytes : Int) < contentLength →
      (storeFileRun contentLength createResult arrivals completeErr abortErr
        putErr).putCalls = [] ∧
      (storeFileRun contentLength createResult arrivals completeErr abortErr
        putErr).createCalls = 1) := by
  constructor
  · intro h
    rw [storeFileRun.eq_def, if_neg (by omega)]
  · intro h
    rw [storeFileRun.eq_def, if_pos h]
    rcases createResult with e | ⟨_ | u⟩
    · exact ⟨rfl, rfl⟩
    · exact ⟨rfl, rfl⟩
    · simp only
      split
      · exact ⟨rfl, rfl⟩
      · exact ⟨rfl, rfl⟩

/-- C4 witness: a 4-byte store goes through the single PUT path; a store of
`put_get_object_max_bytes + 1` bytes goes through the multipart path. -/
theorem storeFile_threshold_dispatch_witness :
    (storeFileRun 4 (.ok ⟨none⟩) [] none none none =
      ⟨[(0, 4)], 0, [], 0, none⟩) ∧
    ((storeFileRun (268435457 : Int) (.ok ⟨some "uid"⟩) [] none none
        none).putCalls = [] ∧
      (storeFileRun (268435457 : Int) (.ok ⟨some "uid"⟩) [] none none
        none).createCalls = 1) :=
  ⟨(storeFile_threshold_dispatch 4 (.ok ⟨none⟩) [] none none none).1 (by decide),
    (storeFile_threshold_dispatch (268435457 : Int) (.ok ⟨some "uid"⟩) [] none
      none none).2 (by decide)⟩

/-- C10 witness: the partition of `put_get_object_max_bytes + 1` bytes. -/
theorem storeFile_partition_chunk_is_threshold_witness :
    (∀ p ∈ (partsFor (put_get_object_max_bytes + 1)).dropLast,
      p.len = put_get_object_max_bytes) ∧
    2 ≤ (partsFor (put_get_object_max_bytes + 1)).length ∧
    put_get_object_max_bytes = 256 * 1024 * 1024 ∧
    multipart_upload_part_size = 100 * 1024 * 1024 ∧
    multipart_upload_part_size ≠ put_get_object_max_bytes :=
  storeFile_partition_chunk_is_threshold (put_get_object_max_bytes + 1) (by decide)

theorem collectLoop_all_ok (l : List PartUploadResult) :
    ∀ acc err, (∀ r ∈ l, r.err = none) →
      collectLoop l acc err = (acc ++ l.map (fun r => r.completedPart), err) := by
  induction l with
  | nil => intro acc err _; simp [collectLoop]
  | cons r rest ih =>
    intro acc err h
    have hr : r.err = none := h r (by simp)
    rw [collectLoop, hr]
    rw [ih (acc ++ [r.completedPart]) err (fun x hx => h x (by simp [hx]))]
    simp

theorem collectLoop_err_sticky (l : List PartUploadResult) :
    ∀ acc e0, (collectLoop l acc (some e0)).2 = some e0 := by
  induction l with
  | nil => intro acc e0; simp [collectLoop]
  | cons r rest ih =>
    intro acc e0
    rw [collectLoop]
    cases hr : r.err with
    | none => exact ih _ _
    | some e => exact ih _ _

theorem collectLoop_err_first (l : List PartUploadResult) :
    ∀ acc, (collectLoop l acc none).2 = l.findSome? (fun r => r.err) := by
  induction l with
  | nil => intro acc; simp [collectLoop]
  | cons r rest ih =>
    intro acc
    rw [collectLoop, List.findSome?]
    cases hr : r.err with
    | none => exact ih _
    | some e => exact collectLoop_err_sticky rest _ e

theorem sorted_le_range' : ∀ n s, List.Sorted (· ≤ ·) (List.range' s n) := by
  intro n
  induction n with
  | zero => intro s; simp
  | succ m ih =>
    intro s
    rw [List.range'_succ]
    refine List.sorted_cons.mpr ⟨?_, ih (s + 1)⟩
    intro b hb
    have := (List.mem_range'_1.mp hb).1
    omega

/-- C1: if every part upload succeeds, `StoreFile` issues exactly one
`CompleteMultipartUpload` whose part list is sorted in ascending part-number
order (it is exactly `1..N`), issues no abort, and returns the classified
result of that completion call — for every arrival order of the part results
on the channel. -/
theorem storeFile_multipart_success (cl : Int) (uid : String) (etagOf : Nat → String)
    (arrivals : List PartUploadResult) (completeErr abortErr putErr : Option GoErr)
    (hcl : (put_get_object_max_bytes : Int) < cl)
    (hperm : arrivals.Perm ((partsFor cl.toNat).map
      (fun p => ⟨⟨p.num, etagOf p.num⟩, none⟩))) :
    (storeFileRun cl (.ok ⟨some uid⟩) arrivals completeErr abortErr putErr).putCalls
      = [] ∧
    (storeFileRun cl (.ok ⟨some uid⟩) arrivals completeErr abortErr putErr).createCalls
      = 1 ∧
    (storeFileRun cl (.ok ⟨some uid⟩) arrivals completeErr abortErr putErr).abortCalls
      = 0 ∧
    (storeFileRun cl (.ok ⟨some uid⟩) arrivals completeErr abortErr putErr).completeCalls
      = [List.insertionSort partNumLE (arrivals.map (fun r => r.completedPart))] ∧
    (∀ lp ∈ (storeFileRun cl (.ok ⟨some uid⟩) arrivals completeErr abortErr
        putErr).completeCalls,
      lp.map (fun c => c.partNumber) = List.range' 1 (partsFor cl.toNat).length) ∧
    (storeFileRun cl (.ok ⟨some uid⟩) arrivals completeErr abortErr putErr).returned
      = completeErr.map handleError := by
  have hclN : put_get_object_max_bytes < cl.toNat := by omega
  have hallok : ∀ r ∈ arrivals, r.err = none := by
    intro r hr
    have hr2 := hperm.subset hr
    obtain ⟨p, _, hpr⟩ := List.mem_map.mp hr2
    rw [← hpr]
  have hcollect := collectLoop_all_ok arrivals [] none hallok
  have hlen : (arrivals.map (fun r => r.completedPart)).length =
      (partsFor cl.toNat).length := by
    rw [List.length_map, hperm.length_eq, List.length_map]
  have hrun : storeFileRun cl (.ok ⟨some uid⟩) arrivals completeErr abortErr putErr =
      ⟨[], 1, [List.insertionSort partNumLE (arrivals.map (fun r => r.completedPart))],
        0, completeErr.map handleError⟩ := by
    rw [storeFileRun.eq_def, if_pos hcl]
    simp only [hcollect, Option.isSome_none, Bool.or_false, List.nil_append]
    rw [hlen]
    simp [Nat.lt_irrefl]
  refine ⟨by rw [hrun], by rw [hrun], by rw [hrun], by rw [hrun], ?_, by rw [hrun]⟩
  rw [hrun]
  intro lp hlp
  simp only [List.mem_singleton] at hlp
  subst hlp
  have hpermX : (arrivals.map (fun r => r.completedPart)).Perm
      ((partsFor cl.toNat).map (fun p => (⟨p.num, etagOf p.num⟩ : CompletedPart))) := by
    have := hperm.map (fun r => r.completedPart)
    simpa [List.map_map, Function.comp] using this
  have hsorted : List.Sorted partNumLE
      (List.insertionSort partNumLE (arrivals.map (fun r => r.completedPart))) :=
    List.sorted_insertionSort partNumLE _
  have hsortedNums : List.Sorted (· ≤ ·)
      ((List.insertionSort partNumLE (arrivals.map (fun r => r.completedPart))).map
        (fun c => c.partNumber)) := by
    exact List.Pairwise.map _ (fun a b hab => hab) hsorted
  have hpermNums : ((List.insertionSort partNumLE
      (arrivals.map (fun r => r.completedPart))).map (fun c => c.partNumber)).Perm
      (List.range' 1 (partsFor cl.toNat).length) := by
    have h1 := (List.perm_insertionSort partNumLE
      (arrivals.map (fun r => r.completedPart))).map (fun c => c.partNumber)
    have h2 := hpermX.map (fun c => c.partNumber)
    have h3 : ((partsFor cl.toNat).map
        (fun p => (⟨p.num, etagOf p.num⟩ : CompletedPart))).map (fun c => c.partNumber)
        = List.range' 1 (partsFor cl.toNat).length := by
      rw [List.map_map]
      exact (partsFor_props cl.toNat hclN).2.1
    rw [h3] at h2
    exact h1.trans h2
  exact List.eq_of_perm_of_sorted hpermNums hsortedNums
    (sorted_le_range' (partsFor cl.toNat).length 1)

/-- C1 witness: two parts of 256 MiB each arriving in reversed order; the
completion call receives them sorted as parts 1, 2 and the call returns nil. -/
theorem storeFile_multipart_success_witness :
    (storeFileRun 536870912 (.ok ⟨some "uid"⟩)
        [⟨⟨2, "e"⟩, none⟩, ⟨⟨1, "e"⟩, none⟩] none none none).putCalls = [] ∧
    (storeFileRun 536870912 (.ok ⟨some "uid"⟩)
        [⟨⟨2, "e"⟩, none⟩, ⟨⟨1, "e"⟩, none⟩] none none none).createCalls = 1 ∧
    (storeFileRun 536870912 (.ok ⟨some "uid"⟩)
        [⟨⟨2, "e"⟩, none⟩, ⟨⟨1, "e"⟩, none⟩] none none none).abortCalls = 0 ∧
    (storeFileRun 536870912 (.ok ⟨some "uid"⟩)
        [⟨⟨2, "e"⟩, none⟩, ⟨⟨1, "e"⟩, none⟩] none none none).completeCalls =
      [[⟨1, "e"⟩, ⟨2, "e"⟩]] ∧
    (∀ lp ∈ (storeFileRun 536870912 (.ok ⟨some "uid"⟩)
        [⟨⟨2, "e"⟩, none⟩, ⟨⟨1, "e"⟩, none⟩] none none none).completeCalls,
      lp.map (fun c => c.partNumber) =
        List.range' 1 (partsFor (Int.toNat (536870912 : Int))).length) ∧
    (storeFileRun 536870912 (.ok ⟨some "uid"⟩)
        [⟨⟨2, "e"⟩, none⟩, ⟨⟨1, "e"⟩, none⟩] none none none).returned = none :=
  storeFile_multipart_success 536870912 "uid" (fun _ => "e")
    [⟨⟨2, "e"⟩, none⟩, ⟨⟨1, "e"⟩, none⟩] none none none (by decide)
    (by
      have e : (partsFor (Int.toNat (536870912 : Int))).map
          (fun p => (⟨⟨p.num, (fun _ : Nat => "e") p.num⟩, none⟩ : PartUploadResult)) =
          [⟨⟨1, "e"⟩, none⟩, ⟨⟨2, "e"⟩, none⟩] := by decide
      rw [e]
      exact List.Perm.swap _ _ _)

/-- C2: if some part-upload job reports a terminal failure, `StoreFile`
returns the classified first failure seen on the channel, aborts the
multipart session exactly once, never issues a completion call, and the
abort call's own outcome is not surfaced (the run is identical for every
abort result). -/
theorem storeFile_multipart_failure (cl : Int) (uid : String) (etagOf : Nat → String)
    (errOf : Nat → Option GoErr) (arrivals : List PartUploadResult)
    (completeErr abortErr putErr : Option GoErr)
    (hcl : (put_get_object_max_bytes : Int) < cl)
    (hperm : arrivals.Perm ((partsFor cl.toNat).map
      (fun p => ⟨⟨p.num, etagOf p.num⟩, errOf p.num⟩)))
    (hfail : ∃ r ∈ arrivals, r.err.isSome) :
    (storeFileRun cl (.ok ⟨some uid⟩) arrivals completeErr abortErr putErr).abortCalls
      = 1 ∧
    (storeFileRun cl (.ok ⟨some uid⟩) arrivals completeErr abortErr putErr).completeCalls
      = [] ∧
    (storeFileRun cl (.ok ⟨some uid⟩) arrivals completeErr abortErr putErr).putCalls
      = [] ∧
    (storeFileRun cl (.ok ⟨some uid⟩) arrivals completeErr abortErr putErr).createCalls
      = 1 ∧
    (storeFileRun cl (.ok ⟨some uid⟩) arrivals completeErr abortErr putErr).returned
      = (arrivals.findSome? (fun r => r.err)).map handleError ∧
    ((storeFileRun cl (.ok ⟨some uid⟩) arrivals completeErr abortErr
        putErr).returned).isSome ∧
    (∀ abortErr2, storeFileRun cl (.ok ⟨some uid⟩) arrivals completeErr abortErr putErr
      = storeFileRun cl (.ok ⟨some uid⟩) arrivals completeErr abortErr2 putErr) := by
  have hfe : (collectLoop arrivals [] none).2 = arrivals.findSome? (fun r => r.err) :=
    collectLoop_err_first arrivals []
  have hsome : (arrivals.findSome? (fun r => r.err)).isSome = true := by
    obtain ⟨r, hr, hrs⟩ := hfail
    rcases h : arrivals.findSome? (fun r => r.err) with _ | e
    · have := List.findSome?_eq_none_iff.mp h r hr
      rw [this] at hrs
      simp at hrs
    · rw [h]
      rfl
  have hrun : storeFileRun cl (.ok ⟨some uid⟩) arrivals completeErr abortErr putErr =
      ⟨[], 1, [], 1, (arrivals.findSome? (fun r => r.err)).map handleError⟩ := by
    rw [storeFileRun.eq_def, if_pos hcl]
    simp only [hfe, hsome, Bool.or_true, if_true]
  refine ⟨by rw [hrun], by rw [hrun], by rw [hrun], by rw [hrun], by rw [hrun], ?_, ?_⟩
  · rw [hrun]
    simpa using hsome
  · intro abortErr2
    rfl

/-- C2 witness: two parts where part 2 fails with a `RequestTimeout` and
arrives first; `StoreFile` aborts once, completes nothing and returns the
classified timeout error, whatever the abort outcome. -/
theorem storeFile_multipart_failure_witness :
    (storeFileRun 536870912 (.ok ⟨some "uid"⟩)
        [⟨⟨2, "y"⟩, some (.awsErr "RequestTimeout" "t")⟩, ⟨⟨1, "x"⟩, none⟩]
        none none none).abortCalls = 1 ∧
    (storeFileRun 536870912 (.ok ⟨some "uid"⟩)
        [⟨⟨2, "y"⟩, some (.awsErr "RequestTimeout" "t")⟩, ⟨⟨1, "x"⟩, none⟩]
        none none none).completeCalls = [] ∧
    (storeFileRun 536870912 (.ok ⟨some "uid"⟩)
        [⟨⟨2, "y"⟩, some (.awsErr "RequestTimeout" "t")⟩, ⟨⟨1, "x"⟩, none⟩]
        none none none).putCalls = [] ∧
    (storeFileRun 536870912 (.ok ⟨some "uid"⟩)
        [⟨⟨2, "y"⟩, some (.awsErr "RequestTimeout" "t")⟩, ⟨⟨1, "x"⟩, none⟩]
        none none none).createCalls = 1 ∧
    (storeFileRun 536870912 (.ok ⟨some "uid"⟩)
        [⟨⟨2, "y"⟩, some (.awsErr "RequestTimeout" "t")⟩, ⟨⟨1, "x"⟩, none⟩]
        none none none).returned = some ErrOperationTimeout ∧
    ((storeFileRun 536870912 (.ok ⟨some "uid"⟩)
        [⟨⟨2, "y"⟩, some (.awsErr "RequestTimeout" "t")⟩, ⟨⟨1, "x"⟩, none⟩]
        none none none).returned).isSome ∧
    (∀ abortErr2, storeFileRun 536870912 (.ok ⟨some "uid"⟩)
        [⟨⟨2, "y"⟩, some (.awsErr "RequestTimeout" "t")⟩, ⟨⟨1, "x"⟩, none⟩]
        none none none
      = storeFileRun 536870912 (.ok ⟨some "uid"⟩)
        [⟨⟨2, "y"⟩, some (.awsErr "RequestTimeout" "t")⟩, ⟨⟨1, "x"⟩, none⟩]
        none abortErr2 none) :=
  storeFile_multipart_failure 536870912 "uid"
    (fun n => if n = 2 then "y" else "x")
    (fun n => if n = 2 then some (.awsErr "RequestTimeout" "t") else none)
    [⟨⟨2, "y"⟩, some (.awsErr "RequestTimeout" "t")⟩, ⟨⟨1, "x"⟩, none⟩]
    none none none (by decide)
    (by
      have e : (partsFor (Int.toNat (536870912 : Int))).map
          (fun p => (⟨⟨p.num, (fun n : Nat => if n = 2 then "y" else "x") p.num⟩,
            (fun n : Nat => if n = 2 then some (.awsErr "RequestTimeout" "t")
              else none) p.num⟩ : PartUploadResult)) =
          [⟨⟨1, "x"⟩, none⟩, ⟨⟨2, "y"⟩, some (.awsErr "RequestTimeout" "t")⟩] := by
        decide
      rw [e]
      exact List.Perm.swap _ _ _)
    (by decide)

theorem uploadPartLoop_attempts_le (o : Nat → String × Option GoErr) :
    ∀ fuel attempt calls sleeps etag err,
      (uploadPartLoop o fuel attempt calls sleeps etag err).attempts ≤ calls + fuel := by
  intro fuel
  induction fuel with
  | zero => intro attempt calls sleeps etag err; simp [uploadPartLoop]
  | succ f ih =>
    intro attempt calls sleeps etag err
    rw [uploadPartLoop]
    by_cases h : attempt < multipart_upload_max_attempts
    · rw [if_pos h]
      cases ho : (o attempt).2 with
      | none => simp
      | some e =>
        have h2 := ih (attempt + 1) (calls + 1) (sleeps + 1) (o attempt).1 (some e)
        exact le_trans h2 (by omega)
    · rw [if_neg h]
      simp

/-- If attempts `0..k-2` fail and attempt `k-1` succeeds (0-based; that is,
1-based attempts `1..k-1` fail and attempt `k` succeeds), the loop makes
exactly `k` calls, sleeps exactly `k - 1` times and exits with the
successful attempt's ETag and no error. -/
theorem uploadPartLoop_succeeds (o : Nat → String × Option GoErr) :
    ∀ fuel attempt calls sleeps etag err k,
      attempt < k → k ≤ attempt + fuel → k ≤ multipart_upload_max_attempts →
      (∀ i, attempt ≤ i → i + 1 < k → ((o i).2).isSome) →
      (o (k - 1)).2 = none →
      uploadPartLoop o fuel attempt calls sleeps etag err =
        ⟨calls + (k - attempt), sleeps + (k - 1 - attempt), (o (k - 1)).1, none⟩ := by
  intro fuel
  induction fuel with
  | zero => intro attempt calls sleeps etag err k h1 h2; omega
  | succ f ih =>
    intro attempt calls sleeps etag err k h1 h2 h3 hfail hsucc
    rw [uploadPartLoop, if_pos (by omega)]
    by_cases hk : attempt + 1 = k
    · have ha : attempt = k - 1 := by omega
      rw [ha, hsucc]
      have e1 : calls + (k - (k - 1)) = calls + 1 := by omega
      have e2 : sleeps + (k - 1 - (k - 1)) = sleeps + 0 := by omega
      rw [e1, e2]
      rfl
    · have hlt : attempt + 1 < k := by omega
      obtain ⟨e, ho⟩ := Option.isSome_iff_exists.mp (hfail attempt (Nat.le_refl _) hlt)
      rw [ho]
      have hmain := ih (attempt + 1) (calls + 1) (sleeps + 1) (o attempt).1 (some e) k
        (by omega) (by omega) h3 (fun i hi hik => hfail i (by omega) hik) hsucc
      have e1 : calls + 1 + (k - (attempt + 1)) = calls + (k - attempt) := by omega
      have e2 : sleeps + 1 + (k - 1 - (attempt + 1)) = sleeps + (k - 1 - attempt) := by
        omega
      rw [e1, e2] at hmain
      exact hmain

/-- C6: a part-upload job makes at most `multipart_upload_max_attempts` (5)
`UploadPart` calls; a job whose attempts `1..k-1` fail and whose attempt `k`
succeeds makes exactly `k` calls, sleeps the injectable `waitfunc` delay
(`multipart_upload_wait_seconds = 5` seconds) exactly `k - 1` times — between
attempts — and its single channel message contributes exactly one success to
the collected part list. -/
theorem uploadPart_retry_behaviour (o : Nat → String × Option GoErr) (k : Nat)
    (hk1 : 1 ≤ k) (hk5 : k ≤ multipart_upload_max_attempts)
    (hfail : ∀ i, i + 1 < k → ((o i).2).isSome)
    (hsucc : (o (k - 1)).2 = none) :
    uploadPartRun o = ⟨k, k - 1, (o (k - 1)).1, none⟩ ∧
    (∀ o2 : Nat → String × Option GoErr,
      (uploadPartRun o2).attempts ≤ multipart_upload_max_attempts) ∧
    multipart_upload_max_attempts = 5 ∧
    multipart_upload_wait_seconds = 5 ∧
    (∀ pn ps er, collectLoop [⟨⟨pn, (uploadPartRun o).etag⟩, (uploadPartRun o).err⟩] ps er
      = (ps ++ [⟨pn, (o (k - 1)).1⟩], er)) := by
  have hrun : uploadPartRun o = ⟨k, k - 1, (o (k - 1)).1, none⟩ := by
    rw [uploadPartRun,
      uploadPartLoop_succeeds o multipart_upload_max_attempts 0 0 0 "" none k
        (by omega) (by omega) hk5 (fun i _ hik => hfail i hik) hsucc]
    have e1 : 0 + (k - 0) = k := by omega
    have e2 : 0 + (k - 1 - 0) = k - 1 := by omega
    rw [e1, e2]
  refine ⟨hrun, ?_, rfl, rfl, ?_⟩
  · intro o2
    have := uploadPartLoop_attempts_le o2 multipart_upload_max_attempts 0 0 0 "" none
    simpa [uploadPartRun] using this
  · intro pn ps er
    rw [hrun]
    simp [collectLoop]

/-- C6 witness: a job failing its first attempt with `RequestTimeout` and
succeeding on the second makes 2 calls with 1 sleep in between. -/
theorem uploadPart_retry_behaviour_witness :
    uploadPartRun (fun i => if i = 0 then ("a", some (.awsErr "RequestTimeout" "m"))
        else ("b", none)) = ⟨2, 1, "b", none⟩ ∧
    (∀ o2 : Nat → String × Option GoErr,
      (uploadPartRun o2).attempts ≤ multipart_upload_max_attempts) ∧
    multipart_upload_max_attempts = 5 ∧
    multipart_upload_wait_seconds = 5 ∧
    (∀ pn ps er, collectLoop
        [⟨⟨pn, (uploadPartRun (fun i => if i = 0 then
          ("a", some (.awsErr "RequestTimeout" "m")) else ("b", none))).etag⟩,
          (uploadPartRun (fun i => if i = 0 then
          ("a", some (.awsErr "RequestTimeout" "m")) else ("b", none))).err⟩] ps er
      = (ps ++ [⟨pn, "b"⟩], er)) :=
  uploadPart_retry_behaviour
    (fun i => if i = 0 then ("a", some (.awsErr "RequestTimeout" "m")) else ("b", none))
    2 (by decide) (by decide)
    (fun i hi => by
      have h0 : i = 0 := by omega
      subst h0
      decide)
    (by decide)

theorem mpReachable_invariant (N : Nat) (s : MPState) (h : MPReachable N s) :
    s.pending + s.inflight + s.done = s.spawned ∧ s.spawned ≤ N := by
  induction h with
  | refl => simp
  | tail hab hbc ih =>
    cases hbc with
    | spawn ht => simp only; omega
    | start ht => simp only; omega
    | finish ht => simp only; omega

/-- C3 counterexample: with 5 parts (contentLength `5 * put_get_object_max_bytes`),
the state in which all 5 part uploads are simultaneously in flight is
reachable — the code has no concurrency limiter, so the claimed bound of 4
concurrent part uploads is violated. -/
theorem storeFile_concurrency_exceeds_four :
    MPReachable ((partsFor (5 * put_get_object_max_bytes)).length)
      ⟨0, 5, 0, 5⟩ ∧
    ¬ ((⟨0, 5, 0, 5⟩ : MPState).inflight ≤ 4) := by
  constructor
  · show Relation.ReflTransGen
      (MPStep ((partsFor (5 * put_get_object_max_bytes)).length)) ⟨0, 0, 0, 0⟩ ⟨0, 5, 0, 5⟩
    have h5 : (partsFor (5 * put_get_object_max_bytes)).length = 5 := by decide
    rw [h5]
    exact (((((((((Relation.ReflTransGen.single
      (MPStep.spawn ⟨0, 0, 0, 0⟩ (by decide))).tail
      (MPStep.spawn _ (by decide))).tail
      (MPStep.spawn _ (by decide))).tail
      (MPStep.spawn _ (by decide))).tail
      (MPStep.spawn _ (by decide))).tail
      (MPStep.start _ (by decide))).tail
      (MPStep.start _ (by decide))).tail
      (MPStep.start _ (by decide))).tail
      (MPStep.start _ (by decide))).tail
      (MPStep.start _ (by decide))
  · decide

/-- C3 amended: there is no fixed concurrency limit in `StoreFile`; the only
bound on simultaneously in-flight part uploads is the number of parts `N`
itself (every goroutine spawned by the loop may be uploading at once). -/
theorem storeFile_inflight_le_numParts (N : Nat) (s : MPState)
    (h : MPReachable N s) : s.inflight ≤ N := by
  have := mpReachable_invariant N s h
  omega

/-- C3 amended witness: the bound applied to the initial state of a 5-part
run. -/
theorem storeFile_inflight_le_numParts_witness :
    (⟨0, 0, 0, 0⟩ : MPState).inflight ≤ (partsFor (5 * put_get_object_max_bytes)).length :=
  storeFile_inflight_le_numParts ((partsFor (5 * put_get_object_max_bytes)).length)
    ⟨0, 0, 0, 0⟩ Relation.ReflTransGen.refl

/-- C7: `handleError` is a total deterministic function on error values:
`NotFound`, `NoSuchBucket` and `NoSuchKey` map to `"file not found"`;
`AccessDenied` to `"access denied"`; `MissingRegion` and `EmptyStaticCreds`
to `"invalid backend configuration"`; `RequestTimeout` to
`"operation timeout"`; every other coded error maps to
`"unknown B2 error (<code>: <message>)."` and an uncoded error to
`"unknown B2 error (<message>)."` — in both cases wrapping the original
error's `Error()` string. -/
theorem handleError_classification (code msg : String) :
    ((code = "NotFound" ∨ code = "NoSuchBucket" ∨ code = "NoSuchKey") →
      handleError (.awsErr code msg) = ErrFileNotFound) ∧
    (code = "AccessDenied" → handleError (.awsErr code msg) = ErrAccessDenied) ∧
    ((code = "MissingRegion" ∨ code = "EmptyStaticCreds") →
      handleError (.awsErr code msg) = ErrInvalidConfig) ∧
    (code = "RequestTimeout" → handleError (.awsErr code msg) = ErrOperationTimeout) ∧
    (code ∉ ["NotFound", "NoSuchBucket", "NoSuchKey", "AccessDenied",
        "MissingRegion", "EmptyStaticCreds", "RequestTimeout"] →
      handleError (.awsErr code msg) =
        "unknown B2 error (" ++ code ++ ": " ++ msg ++ ").") ∧
    (handleError (.genericErr msg) = "unknown B2 error (" ++ msg ++ ").") ∧
    ErrFileNotFound = "file not found" ∧
    ErrAccessDenied = "access denied" ∧
    ErrInvalidConfig = "invalid backend configuration" ∧
    ErrOperationTimeout = "operation timeout" := by
  refine ⟨?_, ?_, ?_, ?_, ?_, rfl, rfl, rfl, rfl, rfl⟩
  · intro h
    simp [handleError, h]
  · intro h
    subst h
    simp [handleError]
  · intro h
    rcases h with h | h <;> subst h <;> simp [handleError]
  · intro h
    subst h
    simp [handleError]
  · intro h
    simp only [List.mem_cons, List.not_mem_nil, or_false, not_or] at h
    obtain ⟨h1, h2, h3, h4, h5, h6, h7⟩ := h
    rw [handleError.eq_def]
    simp only [if_neg (show ¬ (code = "NotFound" ∨ code = "NoSuchBucket" ∨
        code = "NoSuchKey") by tauto),
      if_neg h4,
      if_neg (show ¬ (code = "MissingRegion" ∨ code = "EmptyStaticCreds") by tauto),
      if_neg h7]
    rw [errString]
    simp [String.append_assoc]

/-- C7 witness: the classifier evaluated on a known code and on an unknown
code. -/
theorem handleError_classification_witness :
    handleError (.awsErr "NotFound" "x") = ErrFileNotFound ∧
    handleError (.awsErr "UnknownError" "") =
      "unknown B2 error (" ++ "UnknownError" ++ ": " ++ "" ++ ")." ∧
    handleError (.genericErr "boom") = "unknown B2 error (" ++ "boom" ++ ")." :=
  ⟨(handleError_classification "NotFound" "x").1 (Or.inl rfl),
    (handleError_classification "UnknownError" "").2.2.2.2.1 (by decide),
    (handleError_classification "UnknownError" "boom").2.2.2.2.2.1⟩

theorem foldl_before_max (items : List ObjItem) : ∀ a : Int,
    items.foldl (fun m it => if m < it.lastModified then it.lastModified else m) a =
    items.foldl (fun m it => max m it.lastModified) a := by
  induction items with
  | nil => intro a; rfl
  | cons it rest ih =>
    intro a
    simp only [List.foldl_cons]
    rw [show (if a < it.lastModified then it.lastModified else a) =
        max a it.lastModified from ?_]
    · exact ih _
    · rcases lt_or_le a it.lastModified with h | h
      · rw [if_pos h, max_eq_right (le_of_lt h)]
      · rw [if_neg (not_lt.mpr h), max_eq_left h]

/-- C8 counterexample: the claim "`modified` equals the maximum modification
time among the listed objects and `size` their sum" fails on the code.  A
single object modified before the epoch yields `modified = 0` (the epoch),
not the object's time `-1`; and three objects of `2 ^ 63 - 1` bytes yield
the uint64-wrapped sum `2 ^ 63 - 3`, not the true sum `3 * (2 ^ 63 - 1)`. -/
theorem getFileInfo_aggregate_counterexample :
    (getFileInfoModel "valid/p/" (.ok [⟨"valid/p/k", 1, -1⟩]) (.ok ⟨0, 0⟩) =
      .ok ⟨"valid/p/", 1, 0, false⟩ ∧ (0 : Int) ≠ -1) ∧
    (getFileInfoModel "valid/p/"
        (.ok [⟨"valid/p/a", 2 ^ 63 - 1, 1⟩, ⟨"valid/p/b", 2 ^ 63 - 1, 1⟩,
          ⟨"valid/p/c", 2 ^ 63 - 1, 1⟩]) (.ok ⟨0, 0⟩) =
      .ok ⟨"valid/p/", 2 ^ 63 - 3, 1, false⟩ ∧
      (2 ^ 63 - 3 : Nat) ≠ 3 * (2 ^ 63 - 1)) := by
  exact ⟨⟨by rfl, by decide⟩, ⟨by rfl, by decide⟩⟩

/-- C8 amended: for every prefix key (trailing separator) on which the
listing succeeds, `GetFileInfo` returns no error and a `FileInfo` with
`isfile = false`, `size` the uint64 (modulo `2 ^ 64`) sum of the listed
object sizes, and `modified` the maximum of the Unix epoch and the listed
modification times; an empty listing therefore yields `size = 0` and
`modified` = epoch. -/
theorem getFileInfo_aggregates (key : String) (items : List ObjItem)
    (headResp : Except GoErr HeadOut) (hkey : goHasSuffix key "/" = true) :
    getFileInfoModel key (.ok items) headResp =
      .ok ⟨key,
        items.foldl (fun s it => (s + u64 it.size) % 2 ^ 64) 0,
        items.foldl (fun m it => max m it.lastModified) 0,
        false⟩ := by
  simp only [getFileInfoModel, listFilesModel, if_pos hkey, List.foldl_map]
  rw [foldl_before_max]

/-- C8 amended witness: two objects of sizes 1 and 2 modified at times 1 and
2 aggregate to size 3, modified 2, not-a-file. -/
theorem getFileInfo_aggregates_witness :
    getFileInfoModel "valid/p/"
        (.ok [⟨"valid/p/key1", 1, 1⟩, ⟨"valid/p/key2", 2, 2⟩]) (.ok ⟨0, 0⟩) =
      .ok ⟨"valid/p/", 3, 2, false⟩ :=
  getFileInfo_aggregates "valid/p/" [⟨"valid/p/key1", 1, 1⟩, ⟨"valid/p/key2", 2, 2⟩]
    (.ok ⟨0, 0⟩) (by decide)

theorem psrRunSeq_bar_irrelevant {σ β : Type}
    (srRead : σ → Nat → Nat × Option GoErr × σ) (ops : BarOps β) :
    ∀ (bufs : List Nat) (sr : σ) (size rc : Int) (bar : Option β),
      ((psrRunSeq srRead ops ⟨sr, size, rc, bar⟩ bufs).1 =
        (psrRunSeq srRead ops ⟨sr, size, rc, none⟩ bufs).1) ∧
      ((psrRunSeq srRead ops ⟨sr, size, rc, bar⟩ bufs).2.sr =
        (psrRunSeq srRead ops ⟨sr, size, rc, none⟩ bufs).2.sr) ∧
      ((psrRunSeq srRead ops ⟨sr, size, rc, bar⟩ bufs).2.readCount =
        (psrRunSeq srRead ops ⟨sr, size, rc, none⟩ bufs).2.readCount) := by
  intro bufs
  induction bufs with
  | nil => intro sr size rc bar; exact ⟨rfl, rfl, rfl⟩
  | cons b bs ih =>
    intro sr size rc bar
    simp only [psrRunSeq, psrRead]
    obtain ⟨h1, h2, h3⟩ := ih (srRead sr b).2.2 size (rc + (srRead sr b).1)
      (match bar with
        | none => none
        | some b0 =>
          if rc < size then
            if (ops.isFinished (ops.add (if rc = 0 then ops.describe b0 "signing"
                else b0) (srRead sr b).1)) then
              some (ops.describe (ops.reset (ops.add (if rc = 0 then
                ops.describe b0 "signing" else b0) (srRead sr b).1)) "uploading")
            else some (ops.add (if rc = 0 then ops.describe b0 "signing" else b0)
              (srRead sr b).1)
          else some (ops.add b0 (srRead sr b).1))
    exact ⟨by rw [h1], by rw [h2], by rw [h3]⟩

/-- C9: the progress-tracking reader never alters read semantics.  Each
`Read` returns exactly the underlying reader's byte count and error and
advances the underlying state exactly as the underlying reader does; and for
every underlying reader and every sequence of `Read` calls, the outputs,
the final underlying reader state and the cumulative read counter are
identical whether progress reporting is enabled or disabled (the bar is
write-only from the reader's perspective). -/
theorem progressReader_transparent {σ β : Type}
    (srRead : σ → Nat → Nat × Option GoErr × σ) (ops : BarOps β)
    (mkBar : Int → β) (sr0 : σ) (size : Int) :
    (∀ (s : PSRState σ β) (bufLen : Nat),
      (psrRead srRead ops s bufLen).1 = (srRead s.sr bufLen).1 ∧
      (psrRead srRead ops s bufLen).2.1 = (srRead s.sr bufLen).2.1 ∧
      (psrRead srRead ops s bufLen).2.2.sr = (srRead s.sr bufLen).2.2 ∧
      (psrRead srRead ops s bufLen).2.2.readCount
        = s.readCount + (srRead s.sr bufLen).1) ∧
    (∀ (bufs : List Nat) (rc : Int) (bar : Option β),
      (psrRunSeq srRead ops ⟨sr0, size, rc, bar⟩ bufs).1 =
        (psrRunSeq srRead ops ⟨sr0, size, rc, none⟩ bufs).1) ∧
    (∀ bufs : List Nat,
      (psrRunSeq srRead ops (newPSR mkBar true sr0 size) bufs).1 =
        (psrRunSeq srRead ops (newPSR mkBar false sr0 size) bufs).1) := by
  refine ⟨fun s bufLen => ⟨rfl, rfl, rfl, rfl⟩, ?_, ?_⟩
  · intro bufs rc bar
    exact (psrRunSeq_bar_irrelevant srRead ops bufs sr0 size rc bar).1
  · intro bufs
    exact (psrRunSeq_bar_irrelevant srRead ops bufs sr0 size 0
      (some (mkBar size))).1
